import Mathlib

/-!
Verification of the learnX account-identity backend (`src/main.py`).

The Python service is shallowly embedded: the record store is a list of
account records in insertion order (SQLAlchemy `first()` is modelled as the
first list element matching the query predicate), the credential codec is
base64 over the UTF-8 bytes of the secret (`base64.b64encode(s.encode())`),
token generation is modelled by passing the freshly generated token as an
explicit argument, and the SMTP side effect is modelled by the configuration
record plus a boolean saying whether the network send would succeed.
-/

namespace LearnX

/-! ### Credential codec: base64 over UTF-8 bytes, from
`base64.b64encode(user.password.encode()).decode()` (main.py line 197). -/

/-- The standard base64 alphabet used by `base64.b64encode`. -/
def b64Alphabet : List Char :=
  "ABCDEFGHIJKLMNOPQRSTUVWXYZabcdefghijklmnopqrstuvwxyz0123456789+/".data

/-- Character for a six-bit group. -/
def b64char (n : Nat) : Char := b64Alphabet.getD n 'A'

/-- Six-bit value of a base64 alphabet character. -/
def b64sextet (c : Char) : Nat := (b64Alphabet.findIdx? (fun d => d == c)).getD 0

/-- UTF-8 encoding of one unicode scalar value, written with division and
remainder (extensionally the shift-and-mask formulation). -/
def utf8EncodeCharNat (c : Nat) : List Nat :=
  if c < 0x80 then [c]
  else if c < 0x800 then [0xC0 + c / 64, 0x80 + c % 64]
  else if c < 0x10000 then [0xE0 + c / 4096, 0x80 + c / 64 % 64, 0x80 + c % 64]
  else [0xF0 + c / 0x40000, 0x80 + c / 4096 % 64, 0x80 + c / 64 % 64, 0x80 + c % 64]

/-- UTF-8 byte sequence of a list of code points (`str.encode()`). -/
def utf8Bytes (cs : List Nat) : List Nat := cs.flatMap utf8EncodeCharNat

/-- Number of bytes of a UTF-8 sequence, read off its first byte. -/
def utf8Len (b : Nat) : Nat :=
  if b < 0x80 then 1 else if b < 0xE0 then 2 else if b < 0xF0 then 3 else 4

/-- Scalar value recovered from a first byte and its continuation bytes. -/
def utf8DecodeVal (b : Nat) : List Nat → Nat
  | [] => b
  | [b1] => (b - 0xC0) * 64 + (b1 - 0x80)
  | [b1, b2] => (b - 0xE0) * 4096 + (b1 - 0x80) * 64 + (b2 - 0x80)
  | b1 :: b2 :: b3 :: _ =>
      (b - 0xF0) * 0x40000 + (b1 - 0x80) * 4096 + (b2 - 0x80) * 64 + (b3 - 0x80)

/-- UTF-8 decoder used only to prove the encoder injective. -/
def utf8DecodeNat : List Nat → Option (List Nat)
  | [] => some []
  | b :: rest =>
      if rest.length < utf8Len b - 1 then none
      else
        (utf8DecodeNat (rest.drop (utf8Len b - 1))).map
          (fun cs => utf8DecodeVal b (rest.take (utf8Len b - 1)) :: cs)
termination_by l => l.length
decreasing_by simp [List.length_drop]; omega

/-- base64 encoding of a byte list, three bytes to four characters, with
trailing `=` padding, as in `base64.b64encode`. -/
def b64encodeBytes : List Nat → List Char
  | [] => []
  | [b0] => [b64char (b0 / 4), b64char (b0 % 4 * 16), '=', '=']
  | [b0, b1] => [b64char (b0 / 4), b64char (b0 % 4 * 16 + b1 / 16), b64char (b1 % 16 * 4), '=']
  | b0 :: b1 :: b2 :: rest =>
      b64char (b0 / 4) :: b64char (b0 % 4 * 16 + b1 / 16) ::
      b64char (b1 % 16 * 4 + b2 / 64) :: b64char (b2 % 64) :: b64encodeBytes rest

/-- Lenient base64 decoder used only to prove the encoder injective. -/
def b64decodeBytes : List Char → Option (List Nat)
  | [] => some []
  | c0 :: c1 :: c2 :: c3 :: rest =>
      if c2 = '=' then
        if c3 = '=' ∧ rest = [] then some [b64sextet c0 * 4 + b64sextet c1 / 16] else none
      else if c3 = '=' then
        if rest = [] then
          some [b64sextet c0 * 4 + b64sextet c1 / 16,
                b64sextet c1 % 16 * 16 + b64sextet c2 / 4]
        else none
      else
        (b64decodeBytes rest).map
          (fun bs => (b64sextet c0 * 4 + b64sextet c1 / 16) ::
                     (b64sextet c1 % 16 * 16 + b64sextet c2 / 4) ::
                     (b64sextet c2 % 4 * 64 + b64sextet c3) :: bs)
  | _ => none

/-- The credential codec `Encode`: base64 of the UTF-8 bytes of the secret,
returned as a string (main.py line 197, also lines 227 and 403). -/
def b64encode (s : String) : String :=
  String.mk (b64encodeBytes (utf8Bytes (s.data.map Char.toNat)))

theorem b64sextet_b64char : ∀ n : Nat, n < 64 → b64sextet (b64char n) = n := by decide

theorem b64char_ne_pad : ∀ n : Nat, n < 64 → ¬ b64char n = '=' := by decide

theorem utf8Bytes_cons (c : Nat) (cs : List Nat) :
    utf8Bytes (c :: cs) = utf8EncodeCharNat c ++ utf8Bytes cs := rfl

/-- Every byte produced by the UTF-8 encoder of a valid code point is below 256. -/
theorem utf8EncodeCharNat_lt_256 {c : Nat} (hc : c < 0x110000) :
    ∀ b ∈ utf8EncodeCharNat c, b < 256 := by
  intro b hb
  unfold utf8EncodeCharNat at hb
  split at hb
  · simp only [List.mem_singleton] at hb
    omega
  · split at hb
    · simp only [List.mem_cons, List.not_mem_nil, or_false] at hb
      rcases hb with h | h <;> omega
    · split at hb
      · simp only [List.mem_cons, List.not_mem_nil, or_false] at hb
        rcases hb with h | h | h <;> omega
      · simp only [List.mem_cons, List.not_mem_nil, or_false] at hb
        rcases hb with h | h | h | h <;> omega

theorem utf8Bytes_lt_256 {cs : List Nat} (h : ∀ c ∈ cs, c < 0x110000) :
    ∀ b ∈ utf8Bytes cs, b < 256 := by
  induction cs with
  | nil => intro b hb; simp [utf8Bytes] at hb
  | cons c cs ih =>
      intro b hb
      rw [utf8Bytes_cons] at hb
      rcases List.mem_append.mp hb with h1 | h1
      · exact utf8EncodeCharNat_lt_256 (h c (List.mem_cons_self c cs)) b h1
      · exact ih (fun d hd => h d (List.mem_cons_of_mem c hd)) b h1

/-- The UTF-8 decoder inverts the encoder on valid code points. -/
theorem utf8Decode_encode {cs : List Nat} (h : ∀ c ∈ cs, c < 0x110000) :
    utf8DecodeNat (utf8Bytes cs) = some cs := by
  induction cs with
  | nil => simp [utf8Bytes, utf8DecodeNat]
  | cons c cs ih =>
      have hc : c < 0x110000 := h c (List.mem_cons_self c cs)
      have ih2 : utf8DecodeNat (utf8Bytes cs) = some cs :=
        ih (fun d hd => h d (List.mem_cons_of_mem c hd))
      rw [utf8Bytes_cons]
      unfold utf8EncodeCharNat
      split
      · rename_i h1
        have hlen : utf8Len c = 1 := by unfold utf8Len; rw [if_pos h1]
        simp only [List.cons_append, List.nil_append]
        rw [utf8DecodeNat, hlen]
        simp only [Nat.sub_self, List.drop_zero, List.take_zero, ih2, Option.map_some]
        rw [if_neg (by omega)]
        rfl
      · split
        · rename_i h1 h2
          have hlen : utf8Len (0xC0 + c / 64) = 2 := by
            unfold utf8Len; rw [if_neg (by omega), if_pos (by omega)]
          simp only [List.cons_append, List.nil_append]
          rw [utf8DecodeNat, hlen]
          simp only [List.length_cons]
          rw [if_neg (by omega)]
          simp only [Nat.add_sub_cancel, List.drop_succ_cons, List.drop_zero,
            List.take_succ_cons, List.take_zero, ih2]
          have hval : utf8DecodeVal (0xC0 + c / 64) [0x80 + c % 64] = c := by
            show (0xC0 + c / 64 - 0xC0) * 64 + (0x80 + c % 64 - 0x80) = c
            omega
          rw [hval]
          rfl
        · split
          · rename_i h1 h2 h3
            have hlen : utf8Len (0xE0 + c / 4096) = 3 := by
              unfold utf8Len; rw [if_neg (by omega), if_neg (by omega), if_pos (by omega)]
            simp only [List.cons_append, List.nil_append]
            rw [utf8DecodeNat, hlen]
            simp only [List.length_cons]
            rw [if_neg (by omega)]
            simp only [show (3 : Nat) - 1 = 2 from rfl, List.drop_succ_cons, List.drop_zero,
              List.take_succ_cons, List.take_zero, ih2]
            have hval : utf8DecodeVal (0xE0 + c / 4096) [0x80 + c / 64 % 64, 0x80 + c % 64]
                = c := by
              show (0xE0 + c / 4096 - 0xE0) * 4096 + (0x80 + c / 64 % 64 - 0x80) * 64 +
                (0x80 + c % 64 - 0x80) = c
              omega
            rw [hval]
            rfl
          · rename_i h1 h2 h3
            have hlen : utf8Len (0xF0 + c / 0x40000) = 4 := by
              unfold utf8Len
              rw [if_neg (by omega), if_neg (by omega), if_neg (by omega)]
            simp only [List.cons_append, List.nil_append]
            rw [utf8DecodeNat, hlen]
            simp only [List.length_cons]
            rw [if_neg (by omega)]
            simp only [show (4 : Nat) - 1 = 3 from rfl, List.drop_succ_cons, List.drop_zero,
              List.take_succ_cons, List.take_zero, ih2]
            have hval : utf8DecodeVal (0xF0 + c / 0x40000)
                [0x80 + c / 4096 % 64, 0x80 + c / 64 % 64, 0x80 + c % 64] = c := by
              show (0xF0 + c / 0x40000 - 0xF0) * 0x40000 + (0x80 + c / 4096 % 64 - 0x80) * 4096 +
                (0x80 + c / 64 % 64 - 0x80) * 64 + (0x80 + c % 64 - 0x80) = c
              omega
            rw [hval]
            rfl

/-- The base64 decoder inverts the encoder on byte lists. -/
theorem b64decode_encode :
    ∀ bs : List Nat, (∀ b ∈ bs, b < 256) → b64decodeBytes (b64encodeBytes bs) = some bs := by
  intro bs
  induction bs using b64encodeBytes.induct with
  | case1 => intro _; rfl
  | case2 b0 =>
      intro h
      have hb0 : b0 < 256 := h b0 (by simp)
      simp only [b64encodeBytes, b64decodeBytes, and_self, if_true]
      rw [b64sextet_b64char (b0 / 4) (by omega), b64sextet_b64char (b0 % 4 * 16) (by omega)]
      have : b0 / 4 * 4 + b0 % 4 * 16 / 16 = b0 := by omega
      rw [this]
  | case3 b0 b1 =>
      intro h
      have hb0 : b0 < 256 := h b0 (by simp)
      have hb1 : b1 < 256 := h b1 (by simp)
      simp only [b64encodeBytes, b64decodeBytes, and_self, if_true]
      rw [if_neg (b64char_ne_pad (b1 % 16 * 4) (by omega))]
      rw [b64sextet_b64char (b0 / 4) (by omega),
        b64sextet_b64char (b0 % 4 * 16 + b1 / 16) (by omega),
        b64sextet_b64char (b1 % 16 * 4) (by omega)]
      have e0 : b0 / 4 * 4 + (b0 % 4 * 16 + b1 / 16) / 16 = b0 := by omega
      have e1 : (b0 % 4 * 16 + b1 / 16) % 16 * 16 + b1 % 16 * 4 / 4 = b1 := by omega
      rw [e0, e1]
  | case4 b0 b1 b2 rest ih =>
      intro h
      have hb0 : b0 < 256 := h b0 (by simp)
      have hb1 : b1 < 256 := h b1 (by simp)
      have hb2 : b2 < 256 := h b2 (by simp)
      have hrest : ∀ b ∈ rest, b < 256 := fun b hb => h b (by simp [hb])
      simp only [b64encodeBytes, b64decodeBytes]
      rw [if_neg (b64char_ne_pad (b1 % 16 * 4 + b2 / 64) (by omega)),
        if_neg (b64char_ne_pad (b2 % 64) (by omega)), ih hrest]
      rw [b64sextet_b64char (b0 / 4) (by omega),
        b64sextet_b64char (b0 % 4 * 16 + b1 / 16) (by omega),
        b64sextet_b64char (b1 % 16 * 4 + b2 / 64) (by omega),
        b64sextet_b64char (b2 % 64) (by omega)]
      have e0 : b0 / 4 * 4 + (b0 % 4 * 16 + b1 / 16) / 16 = b0 := by omega
      have e1 : (b0 % 4 * 16 + b1 / 16) % 16 * 16 + (b1 % 16 * 4 + b2 / 64) / 4 = b1 := by
        omega
      have e2 : (b1 % 16 * 4 + b2 / 64) % 4 * 64 + b2 % 64 = b2 := by omega
      rw [e0, e1, e2]
      rfl

/-- Every code point of a Lean character is a valid unicode scalar value. -/
theorem char_toNat_lt (c : Char) : c.toNat < 0x110000 := by
  show c.val.toNat < 0x110000
  rcases c.valid with h | ⟨h1, h2⟩ <;> omega

/-- The credential codec is injective: distinct secrets have distinct encodings. -/
theorem b64encode_injective : Function.Injective b64encode := by
  intro s1 s2 he
  have hv1 : ∀ c ∈ s1.data.map Char.toNat, c < 0x110000 := by
    intro c hc
    rcases List.mem_map.mp hc with ⟨d, _, rfl⟩
    exact char_toNat_lt d
  have hv2 : ∀ c ∈ s2.data.map Char.toNat, c < 0x110000 := by
    intro c hc
    rcases List.mem_map.mp hc with ⟨d, _, rfl⟩
    exact char_toNat_lt d
  have hchars : b64encodeBytes (utf8Bytes (s1.data.map Char.toNat)) =
      b64encodeBytes (utf8Bytes (s2.data.map Char.toNat)) := by
    have := congrArg String.data he
    simpa [b64encode] using this
  have hbytes : utf8Bytes (s1.data.map Char.toNat) = utf8Bytes (s2.data.map Char.toNat) := by
    have d1 := b64decode_encode _ (utf8Bytes_lt_256 hv1)
    have d2 := b64decode_encode _ (utf8Bytes_lt_256 hv2)
    rw [hchars] at d1
    rw [d2] at d1
    exact (Option.some.inj d1).symm
  have hcodes : s1.data.map Char.toNat = s2.data.map Char.toNat := by
    have d1 := utf8Decode_encode hv1
    have d2 := utf8Decode_encode hv2
    rw [hbytes] at d1
    rw [d2] at d1
    exact (Option.some.inj d1).symm
  have hinj : Function.Injective Char.toNat := by
    intro a b hab
    exact Char.ext (UInt32.toNat.inj hab)
  exact String.ext (List.map_injective_iff.mpr hinj hcodes)

/-! ### Data model: the `users` table (main.py lines 29-40).
`is_verified` is stored as the integers 0/1 and only ever tested for
truthiness, so it is modelled as a boolean. Nullable columns are options. -/

/-- One row of the `users` table. -/
structure Account where
  firstName : String
  lastName : String
  email : String
  studentId : Option String
  password : Option String
  google_id : Option String
  reset_token : Option String
  is_verified : Bool
  verification_token : Option String
deriving DecidableEq, Repr

/-- The record store: rows in insertion order.  SQLAlchemy `first()` on a
filtered select is modelled as `List.find?` with the filter predicate. -/
abbrev DB := List Account

/-- Python truthiness of an optional string (`None` and the empty string are
falsy), used for `req.studentId and not user.studentId` (main.py line 295)
and the SMTP credential check (line 112). -/
def pyTruthy : Option String → Bool
  | none => false
  | some s => !(s == "")

/-- Typed error kinds raised via `HTTPException` in main.py. -/
inductive AuthError where
  /-- 400 "Student ID already registered" (line 193). -/
  | conflictStudentId
  /-- 400 "Email already registered" (line 195). -/
  | conflictEmail
  /-- 401 "Invalid student ID or password" (line 252). -/
  | invalidCredentials
  /-- 403 "Email not verified" carrying the account email (lines 238-241). -/
  | emailNotVerified (email : String)
  /-- 400 "Invalid or expired ... token" (lines 334 and 401). -/
  | invalidToken
  /-- 404 "Email not found" (lines 348 and 376). -/
  | notFound
  /-- 500 "Mail server not configured" (line 114). -/
  | unconfigured
  /-- 500 "Failed to send email" (line 163). -/
  | deliveryFailure
deriving DecidableEq, Repr

/-- SMTP environment configuration read by `send_auth_email`
(main.py lines 106-110); only the three credential values are checked. -/
structure SmtpConfig where
  host : Option String
  userName : Option String
  password : Option String
deriving DecidableEq, Repr

/-- `all([smtp_host, smtp_user, smtp_password])` (main.py line 112). -/
def smtpConfigured (cfg : SmtpConfig) : Bool :=
  pyTruthy cfg.host && pyTruthy cfg.userName && pyTruthy cfg.password

/-- The Notifier call `send_auth_email` (main.py lines 105-163): raises
`unconfigured` when the SMTP credentials are not all truthy, otherwise either
succeeds or raises `deliveryFailure`; the network outcome is the boolean
`sendOk`.  Message composition has no observable effect on the store. -/
def send_auth_email (cfg : SmtpConfig) (sendOk : Bool) : Option AuthError :=
  if !smtpConfigured cfg then some .unconfigured
  else if sendOk then none else some .deliveryFailure

/-- Apply `f` to the first row satisfying `p`, leaving every other row
unchanged: the effect of mutating the object returned by `first()` and
committing the session. -/
def updateFirst (p : Account → Bool) (f : Account → Account) : DB → DB
  | [] => []
  | a :: rest => if p a then f a :: rest else a :: updateFirst p f rest

/-- Input of `POST /register` (main.py lines 42-47). -/
structure RegisterRequest where
  firstName : String
  lastName : String
  email : String
  studentId : String
  password : String
deriving DecidableEq, Repr

/-- `POST /register` (main.py lines 182-222).  `newToken` stands for the
generated `uuid.uuid4().hex`.  Returns the store after the request together
with the outcome; on a delivery error the inserted row is kept, matching the
commit that precedes the notifier call. -/
def register (cfg : SmtpConfig) (sendOk : Bool) (newToken : String)
    (db : DB) (u : RegisterRequest) : DB × Except AuthError String :=
  match db.find? (fun a => a.studentId == some u.studentId || a.email == u.email) with
  | some existing =>
      if existing.studentId == some u.studentId then (db, .error .conflictStudentId)
      else (db, .error .conflictEmail)
  | none =>
      let newUser : Account :=
        { firstName := u.firstName, lastName := u.lastName, email := u.email,
          studentId := some u.studentId, password := some (b64encode u.password),
          google_id := none, reset_token := none, is_verified := false,
          verification_token := some newToken }
      let db2 := db ++ [newUser]
      match send_auth_email cfg sendOk with
      | some e => (db2, .error e)
      | none => (db2, .ok "User registered successfully. Please check your email to verify your account.")

/-- Success payload of `POST /login` (main.py lines 243-250): exactly the
first name, last name and student id; no other field of the row is exposed. -/
structure LoginProfile where
  firstName : String
  lastName : String
  studentId : Option String
deriving DecidableEq, Repr

/-- `POST /login` (main.py lines 224-252): select by student id AND encoded
password, then check the verification flag. -/
def login (db : DB) (studentId password : String) : Except AuthError LoginProfile :=
  match db.find? (fun a =>
      a.studentId == some studentId && a.password == some (b64encode password)) with
  | some u =>
      if !u.is_verified then .error (.emailNotVerified u.email)
      else .ok { firstName := u.firstName, lastName := u.lastName, studentId := u.studentId }
  | none => .error .invalidCredentials

/-- Validated federated claims handed to the reconciliation step of
`POST /google-login` (main.py lines 261-264); token verification itself is
external to the core. -/
structure FederatedClaims where
  email : String
  sub : String
  given_name : String
  family_name : String
deriving DecidableEq, Repr

/-- The mutation applied to an email-matched account when a federated login
links to it (main.py lines 292-296). -/
def linkGoogle (sub : String) (reqStudentId : Option String) (a : Account) : Account :=
  { a with google_id := some sub, is_verified := true,
           studentId := if pyTruthy reqStudentId && !pyTruthy a.studentId
                        then reqStudentId else a.studentId }

/-- The reconciliation part of `POST /google-login` (main.py lines 281-321):
lookup by `google_id`, then by email with linking, else creation of a fresh
verified account with no local password.  Returns the store, the
`is_new_user` flag and the account object the handler answers with. -/
def google_login (db : DB) (c : FederatedClaims) (reqStudentId : Option String) :
    DB × Bool × Account :=
  match db.find? (fun a => a.google_id == some c.sub) with
  | some u => (db, false, u)
  | none =>
    match db.find? (fun a => a.email == c.email) with
    | some u =>
        (updateFirst (fun a => a.email == c.email) (linkGoogle c.sub reqStudentId) db,
         false, linkGoogle c.sub reqStudentId u)
    | none =>
        let newUser : Account :=
          { firstName := c.given_name, lastName := c.family_name, email := c.email,
            studentId := reqStudentId, password := none, google_id := some c.sub,
            reset_token := none, is_verified := true, verification_token := none }
        (db ++ [newUser], true, newUser)

/-- `GET /verify-email` (main.py lines 327-339): select by verification
token; on match set the flag and clear the token. -/
def verify_email (db : DB) (token : String) : DB × Except AuthError String :=
  match db.find? (fun a => a.verification_token == some token) with
  | none => (db, .error .invalidToken)
  | some _ =>
      (updateFirst (fun a => a.verification_token == some token)
        (fun a => { a with is_verified := true, verification_token := none }) db,
       .ok "Email verified successfully")

/-- `POST /resend-verification` (main.py lines 341-367): not-found check,
idempotent no-op when already verified, otherwise token rotation committed
before the notifier call. -/
def resend_verification (cfg : SmtpConfig) (sendOk : Bool) (newToken : String)
    (db : DB) (email : String) : DB × Except AuthError String :=
  match db.find? (fun a => a.email == email) with
  | none => (db, .error .notFound)
  | some u =>
      if u.is_verified then (db, .ok "Email is already verified")
      else
        let db2 := updateFirst (fun a => a.email == email)
          (fun a => { a with verification_token := some newToken }) db
        match send_auth_email cfg sendOk with
        | some e => (db2, .error e)
        | none => (db2, .ok "Verification email resent")

/-- `POST /forgot-password` (main.py lines 369-392): not-found check, then
reset-token issuance committed before the notifier call. -/
def forgot_password (cfg : SmtpConfig) (sendOk : Bool) (newToken : String)
    (db : DB) (email : String) : DB × Except AuthError String :=
  match db.find? (fun a => a.email == email) with
  | none => (db, .error .notFound)
  | some _ =>
      let db2 := updateFirst (fun a => a.email == email)
        (fun a => { a with reset_token := some newToken }) db
      match send_auth_email cfg sendOk with
      | some e => (db2, .error e)
      | none => (db2, .ok "Reset email sent")

/-- `POST /reset-password` (main.py lines 394-407): select by reset token; on
match overwrite the stored secret with the encoding of the new one and clear
the token. -/
def reset_password (db : DB) (token newPassword : String) : DB × Except AuthError String :=
  match db.find? (fun a => a.reset_token == some token) with
  | none => (db, .error .invalidToken)
  | some _ =>
      (updateFirst (fun a => a.reset_token == some token)
        (fun a => { a with password := some (b64encode newPassword), reset_token := none }) db,
       .ok "Password reset successfully")

/-! ### Store lemmas shared by the claim proofs. -/

/-- A successful `first()` lookup splits the store into the rows before the
hit, the hit, and the rows after it; mutating the hit rewrites exactly that
row. -/
theorem find?_decomp {p : Account → Bool} {db : DB} {u : Account}
    (h : db.find? p = some u) :
    ∃ l r, db = l ++ u :: r ∧ (∀ a ∈ l, p a = false) ∧ p u = true ∧
      ∀ f, updateFirst p f db = l ++ f u :: r := by
  induction db with
  | nil => simp at h
  | cons a rest ih =>
      by_cases hp : p a
      · rw [List.find?_cons_of_pos _ hp] at h
        obtain rfl : a = u := Option.some.inj h
        refine ⟨[], rest, rfl, by simp, hp, fun f => ?_⟩
        simp [updateFirst, hp]
      · rw [List.find?_cons_of_neg _ hp] at h
        obtain ⟨l, r, hdb, hl, hu, hupd⟩ := ih h
        refine ⟨a :: l, r, by rw [hdb]; rfl, ?_, hu, fun f => ?_⟩
        · intro b hb
          rcases List.mem_cons.mp hb with rfl | hb
          · exact Bool.not_eq_true _ ▸ hp
          · exact hl b hb
        · simp only [updateFirst, if_neg hp, hupd f, List.cons_append]

/-- In a store holding at most one row satisfying `p`, the rows around a
satisfying row all fail `p`. -/
theorem countP_le_one_sides {p : Account → Bool} {l r : List Account} {u : Account}
    (hc : (l ++ u :: r).countP p ≤ 1) (hu : p u = true) :
    (∀ a ∈ l, p a = false) ∧ (∀ a ∈ r, p a = false) := by
  rw [List.countP_append, List.countP_cons_of_pos _ _ hu] at hc
  have hl : l.countP p = 0 := by omega
  have hr : r.countP p = 0 := by omega
  constructor
  · intro a ha
    have := List.countP_eq_zero.mp hl a ha
    exact Bool.not_eq_true _ ▸ this
  · intro a ha
    have := List.countP_eq_zero.mp hr a ha
    exact Bool.not_eq_true _ ▸ this

/-- `first()` on a store whose unique satisfying row sits in the middle. -/
theorem find?_middle {p : Account → Bool} {l r : List Account} {u : Account}
    (hl : ∀ a ∈ l, p a = false) (hu : p u = true) :
    (l ++ u :: r).find? p = some u := by
  rw [List.find?_append]
  have : l.find? p = none := List.find?_eq_none.mpr (by
    intro x hx
    simp [hl x hx])
  rw [this, List.find?_cons_of_pos _ hu]
  rfl

/-- `first()` on a store with no satisfying row at all. -/
theorem find?_middle_none {p : Account → Bool} {l r : List Account} {u : Account}
    (hl : ∀ a ∈ l, p a = false) (hu : p u = false) (hr : ∀ a ∈ r, p a = false) :
    (l ++ u :: r).find? p = none := by
  apply List.find?_eq_none.mpr
  intro x hx
  rcases List.mem_append.mp hx with hx | hx
  · simp [hl x hx]
  · rcases List.mem_cons.mp hx with rfl | hx
    · simp [hu]
    · simp [hr x hx]

/-- Mutating the first satisfying row when it is known to sit in the middle. -/
theorem updateFirst_middle {p : Account → Bool} {f : Account → Account}
    {l r : List Account} {u : Account}
    (hl : ∀ a ∈ l, p a = false) (hu : p u = true) :
    updateFirst p f (l ++ u :: r) = l ++ f u :: r := by
  induction l with
  | nil => simp [updateFirst, hu]
  | cons a l ih =>
      have ha : p a = false := hl a (List.mem_cons_self a l)
      simp only [List.cons_append, updateFirst, ha, Bool.false_eq_true, if_false,
        List.cons.injEq, true_and]
      exact ih (fun b hb => hl b (List.mem_cons_of_mem a hb))

/-! ### Sample data used by the witnesses. -/

/-- A fully configured notifier. -/
def cfgOk : SmtpConfig :=
  { host := some "smtp.x", userName := some "mailer", password := some "hunter2" }

/-- A notifier with all credentials missing. -/
def cfgMissing : SmtpConfig := { host := none, userName := none, password := none }

/-- A verified local account. -/
def ada : Account :=
  { firstName := "Ada", lastName := "Lovelace", email := "ada@x.edu",
    studentId := some "S100", password := some (b64encode "pw1"), google_id := none,
    reset_token := none, is_verified := true, verification_token := none }

/-- An unverified local account with a pending verification token. -/
def bob : Account :=
  { firstName := "Bob", lastName := "Stone", email := "bob@x.edu",
    studentId := some "S200", password := some (b64encode "pw2"), google_id := none,
    reset_token := none, is_verified := false, verification_token := some "vtok1" }

/-- A federated-first-contact account with no local secret. -/
def gina : Account :=
  { firstName := "Gina", lastName := "Cloud", email := "gina@x.edu",
    studentId := some "S300", password := none, google_id := some "gsub1",
    reset_token := none, is_verified := true, verification_token := none }

/-! ### Claims. -/

/-- C1 counterexample: both a studentId collision (row `bob`, id S200) and an
email collision (row `ada`, email ada at x.edu) exist, but because the
email-colliding row is the first query hit, the reported conflict is the
email one, not the studentId one. -/
theorem register_conflict_counterexample :
    (∃ a ∈ [ada, bob], a.studentId = some "S200") ∧
    (register cfgOk true "tok1" [ada, bob]
        { firstName := "Eve", lastName := "New", email := "ada@x.edu",
          studentId := "S200", password := "pw9" }).2 = .error .conflictEmail := by
  constructor
  · exact ⟨bob, by simp [ada, bob], rfl⟩
  · rfl

/-- C1 (amended): registering against an existing studentId or email fails
with a Conflict that names a field on which the first matching row collides
and creates no second row; the studentId conflict is the one reported exactly
when the first matching row collides on studentId (so when one row collides
on both fields, studentId takes precedence), while collisions sitting on a
later row than the first hit are not the ones named. -/
theorem register_conflict (cfg : SmtpConfig) (sendOk : Bool) (tok : String) (db : DB)
    (u : RegisterRequest) (w : Account)
    (h : db.find? (fun a => a.studentId == some u.studentId || a.email == u.email) = some w) :
    (register cfg sendOk tok db u).1 = db ∧
    (w.studentId = some u.studentId →
        (register cfg sendOk tok db u).2 = .error .conflictStudentId) ∧
    (w.studentId ≠ some u.studentId →
        w.email = u.email ∧ (register cfg sendOk tok db u).2 = .error .conflictEmail) := by
  have hp := List.find?_some h
  unfold register
  rw [h]
  by_cases hs : w.studentId = some u.studentId
  · simp [hs]
  · have hw : w.email = u.email := by
      simp only [Bool.or_eq_true, beq_iff_eq] at hp
      tauto
    simp [hs, hw]

/-- C1 witness: a request whose studentId matches an existing row is
rejected with the studentId conflict and the store is unchanged. -/
theorem register_conflict_witness :
    (register cfgOk true "tok1" [bob]
        { firstName := "Eve", lastName := "New", email := "eve@x.edu",
          studentId := "S200", password := "pw9" }).1 = [bob] ∧
    (register cfgOk true "tok1" [bob]
        { firstName := "Eve", lastName := "New", email := "eve@x.edu",
          studentId := "S200", password := "pw9" }).2 = .error .conflictStudentId := by
  have h := register_conflict cfgOk true "tok1" [bob]
    { firstName := "Eve", lastName := "New", email := "eve@x.edu",
      studentId := "S200", password := "pw9" } bob (by rfl)
  exact ⟨h.1, h.2.1 (by rfl)⟩

/-- C6: login answers the same InvalidCredentials error whether the studentId
is unknown or the secret does not match; a matched but unverified account
yields EmailNotVerified carrying the account email; a matched verified
account yields exactly the first name, last name and studentId
(the payload type `LoginProfile` has no other field, in particular no
stored secret). -/
theorem login_spec (db : DB) (sid pw : String) :
    ((∀ a ∈ db, a.studentId ≠ some sid) → login db sid pw = .error .invalidCredentials) ∧
    (db.find? (fun a =>
        a.studentId == some sid && a.password == some (b64encode pw)) = none →
      login db sid pw = .error .invalidCredentials) ∧
    (∀ u, db.find? (fun a =>
        a.studentId == some sid && a.password == some (b64encode pw)) = some u →
      (u.is_verified = false → login db sid pw = .error (.emailNotVerified u.email)) ∧
      (u.is_verified = true →
        login db sid pw = .ok { firstName := u.firstName, lastName := u.lastName,
                                studentId := u.studentId })) := by
  refine ⟨?_, ?_, ?_⟩
  · intro h
    unfold login
    have hnone : db.find? (fun a =>
        a.studentId == some sid && a.password == some (b64encode pw)) = none := by
      apply List.find?_eq_none.mpr
      intro x hx
      simp [h x hx]
    rw [hnone]
  · intro h
    unfold login
    rw [h]
  · intro u h
    constructor
    · intro hv
      unfold login
      rw [h]
      simp [hv]
    · intro hv
      unfold login
      rw [h]
      simp [hv]

/-- C6 witness: the verified account `ada` logs in with its secret and gets
back exactly its public profile. -/
theorem login_spec_witness :
    login [bob, ada] "S100" "pw1" =
      .ok { firstName := "Ada", lastName := "Lovelace", studentId := some "S100" } :=
  ((login_spec [bob, ada] "S100" "pw1").2.2 ada (by rfl)).2 rfl

/-- C10: an account with no stored encoded secret (such as a federated
first-contact account) can never log in locally: for every candidate secret
the encoded candidate is a present string and cannot equal the absent stored
secret, so login fails with InvalidCredentials. -/
theorem login_no_secret (db : DB) (sid : String)
    (h : ∀ a ∈ db, a.studentId = some sid → a.password = none) :
    ∀ pw, login db sid pw = .error .invalidCredentials := by
  intro pw
  unfold login
  have hnone : db.find? (fun a =>
      a.studentId == some sid && a.password == some (b64encode pw)) = none := by
    apply List.find?_eq_none.mpr
    intro x hx
    by_cases hs : x.studentId = some sid
    · simp [hs, h x hx hs]
    · simp [hs]
  rw [hnone]

/-- C10 witness: the federated account `gina` cannot log in with any guess,
here the empty secret and two concrete guesses. -/
theorem login_no_secret_witness :
    login [gina] "S300" "" = .error .invalidCredentials ∧
    login [gina] "S300" "pw1" = .error .invalidCredentials ∧
    login [gina] "S300" "gsub1" = .error .invalidCredentials :=
  ⟨login_no_secret [gina] "S300" (by decide) "",
   login_no_secret [gina] "S300" (by decide) "pw1",
   login_no_secret [gina] "S300" (by decide) "gsub1"⟩

/-- C7: when the uniqueness checks pass but the notifier send fails, register
reports the delivery error while the fresh row, with its encoded secret and
verification token, is already in the store and is not rolled back. -/
theorem register_delivery_failure (cfg : SmtpConfig) (tok : String) (db : DB)
    (u : RegisterRequest)
    (hconf : smtpConfigured cfg = true)
    (hnone : db.find? (fun a =>
        a.studentId == some u.studentId || a.email == u.email) = none) :
    register cfg false tok db u =
      (db ++ [{ firstName := u.firstName, lastName := u.lastName, email := u.email,
                studentId := some u.studentId, password := some (b64encode u.password),
                google_id := none, reset_token := none, is_verified := false,
                verification_token := some tok }], .error .deliveryFailure) := by
  unfold register
  rw [hnone]
  simp [send_auth_email, hconf]

/-- C7 witness: a failed send on an empty store still leaves the new row
durably created. -/
theorem register_delivery_failure_witness :
    register cfgOk false "tok1" []
        { firstName := "Eve", lastName := "New", email := "eve@x.edu",
          studentId := "S900", password := "pw9" } =
      ([{ firstName := "Eve", lastName := "New", email := "eve@x.edu",
          studentId := some "S900", password := some (b64encode "pw9"),
          google_id := none, reset_token := none, is_verified := false,
          verification_token := some "tok1" }], .error .deliveryFailure) :=
  register_delivery_failure cfgOk "tok1" []
    { firstName := "Eve", lastName := "New", email := "eve@x.edu",
      studentId := "S900", password := "pw9" } (by rfl) (by rfl)

/-- C5 counterexample: with the notifier credentials missing, register does
fail with Unconfigured, but only after the new row has been committed — the
store is no longer empty, so the failure is not "before any state change is
committed". -/
theorem unconfigured_commit_counterexample :
    (register cfgMissing true "tok1" []
        { firstName := "Ada", lastName := "Lovelace", email := "ada@x.edu",
          studentId := "S100", password := "pw1" }).2 = .error .unconfigured ∧
    (register cfgMissing true "tok1" []
        { firstName := "Ada", lastName := "Lovelace", email := "ada@x.edu",
          studentId := "S100", password := "pw1" }).1 ≠ [] := by
  constructor
  · rfl
  · decide

/-- C5 (amended): when the notifier credentials are missing, each operation
that would invoke the notifier (register, resend-verification,
forgot-password) fails with Unconfigured without sending anything, but only
after the operation has already committed its own state change (row insertion
or token rotation); nothing is rolled back. -/
theorem unconfigured_after_commit (cfg : SmtpConfig) (tok : String) (db : DB)
    (hbad : smtpConfigured cfg = false) :
    (∀ sendOk u, db.find? (fun a =>
        a.studentId == some u.studentId || a.email == u.email) = none →
      register cfg sendOk tok db u =
        (db ++ [{ firstName := u.firstName, lastName := u.lastName, email := u.email,
                  studentId := some u.studentId, password := some (b64encode u.password),
                  google_id := none, reset_token := none, is_verified := false,
                  verification_token := some tok }], .error .unconfigured)) ∧
    (∀ sendOk email u, db.find? (fun a => a.email == email) = some u →
      u.is_verified = false →
      resend_verification cfg sendOk tok db email =
        (updateFirst (fun a => a.email == email)
          (fun a => { a with verification_token := some tok }) db,
         .error .unconfigured)) ∧
    (∀ sendOk email u, db.find? (fun a => a.email == email) = some u →
      forgot_password cfg sendOk tok db email =
        (updateFirst (fun a => a.email == email)
          (fun a => { a with reset_token := some tok }) db,
         .error .unconfigured)) := by
  refine ⟨?_, ?_, ?_⟩
  · intro sendOk u hnone
    unfold register
    rw [hnone]
    simp [send_auth_email, hbad]
  · intro sendOk email u hfind hv
    unfold resend_verification
    rw [hfind]
    simp [send_auth_email, hbad, hv]
  · intro sendOk email u hfind
    unfold forgot_password
    rw [hfind]
    simp [send_auth_email, hbad]

/-- C5 witness: the unverified account `bob` asks for a resend with the
notifier unconfigured; the call errors with Unconfigured yet the rotated
token is already committed. -/
theorem unconfigured_after_commit_witness :
    resend_verification cfgMissing true "tok9" [bob] "bob@x.edu" =
      ([{ bob with verification_token := some "tok9" }], .error .unconfigured) := by
  have h := (unconfigured_after_commit cfgMissing "tok9" [bob] (by rfl)).2.1
    true "bob@x.edu" bob (by rfl) (by rfl)
  simpa [updateFirst, bob] using h

/-- C8: resend-verification fails with NotFound when no row has the email;
for an already verified account it returns success with the store untouched
and an outcome independent of the notifier configuration and of the send
result (no notifier call); for an unverified account it overwrites whatever
verification token was outstanding with the fresh one and the outcome is
exactly the notifier outcome. -/
theorem resend_verification_spec (cfg : SmtpConfig) (sendOk : Bool) (tok : String)
    (db : DB) (email : String) :
    (db.find? (fun a => a.email == email) = none →
      resend_verification cfg sendOk tok db email = (db, .error .notFound)) ∧
    (∀ u, db.find? (fun a => a.email == email) = some u → u.is_verified = true →
      resend_verification cfg sendOk tok db email = (db, .ok "Email is already verified")) ∧
    (∀ u, db.find? (fun a => a.email == email) = some u → u.is_verified = false →
      ∃ l r, db = l ++ u :: r ∧ (∀ a ∈ l, (a.email == email) = false) ∧
        resend_verification cfg sendOk tok db email =
          (l ++ { u with verification_token := some tok } :: r,
           match send_auth_email cfg sendOk with
           | some e => .error e
           | none => .ok "Verification email resent")) := by
  refine ⟨?_, ?_, ?_⟩
  · intro hnone
    unfold resend_verification
    rw [hnone]
  · intro u hfind hv
    unfold resend_verification
    rw [hfind]
    simp [hv]
  · intro u hfind hv
    obtain ⟨l, r, hdb, hl, hu, hupd⟩ := find?_decomp hfind
    refine ⟨l, r, hdb, hl, ?_⟩
    unfold resend_verification
    rw [hfind]
    simp only [hv, Bool.false_eq_true, if_false]
    rw [hupd]
    cases hsend : send_auth_email cfg sendOk <;> simp [hsend, hv]

/-- C8 witness: resending for the unverified account `bob` with a working
notifier rotates its pending token and reports success. -/
theorem resend_verification_spec_witness :
    resend_verification cfgOk true "tok9" [ada, bob] "bob@x.edu" =
      ([ada, { bob with verification_token := some "tok9" }],
       .ok "Verification email resent") := by
  obtain ⟨l, r, hdb, -, hres⟩ :=
    (resend_verification_spec cfgOk true "tok9" [ada, bob] "bob@x.edu").2.2 bob
      (by rfl) (by rfl)
  have hl : l = [ada] ∧ r = [] := by
    have : l ++ bob :: r = [ada, bob] := hdb.symm
    rcases l with - | ⟨x, l⟩
    · simp at this
      exact absurd this.1 (by decide)
    · rcases l with - | ⟨y, l⟩
      · simp at this
        exact ⟨by rw [this.1], this.2⟩
      · simp at this
  rw [hl.1, hl.2] at hres
  simpa using hres

/-- C3: verification tokens are single-use.  With at most one row holding the
token: a lookup miss (never issued, or already consumed) answers
InvalidToken with the store untouched; a hit marks exactly that row verified,
clears its token, answers success, and an immediate second call with the same
token fails with InvalidToken leaving the store untouched. -/
theorem verify_email_single_use (db : DB) (t : String)
    (huniq : db.countP (fun a => a.verification_token == some t) ≤ 1) :
    (db.find? (fun a => a.verification_token == some t) = none →
      verify_email db t = (db, .error .invalidToken)) ∧
    (∀ u, db.find? (fun a => a.verification_token == some t) = some u →
      ∃ l r, db = l ++ u :: r ∧
        verify_email db t =
          (l ++ { u with is_verified := true, verification_token := none } :: r,
           .ok "Email verified successfully") ∧
        verify_email (l ++ { u with is_verified := true, verification_token := none } :: r) t =
          (l ++ { u with is_verified := true, verification_token := none } :: r,
           .error .invalidToken)) := by
  constructor
  · intro hnone
    unfold verify_email
    rw [hnone]
  · intro u hfind
    obtain ⟨l, r, hdb, hl, hu, hupd⟩ := find?_decomp hfind
    have hsides := countP_le_one_sides (p := fun a => a.verification_token == some t)
      (hdb ▸ huniq) hu
    refine ⟨l, r, hdb, ?_, ?_⟩
    · unfold verify_email
      rw [hfind, hupd]
    · unfold verify_email
      have hnone2 : (l ++ { u with is_verified := true, verification_token := none } :: r).find?
          (fun a => a.verification_token == some t) = none :=
        find?_middle_none hsides.1 (by simp) hsides.2
      rw [hnone2]

/-- C3 witness: the token vtok1 held by `bob` verifies once and is rejected
on the second use; a never-issued token is rejected outright. -/
theorem verify_email_single_use_witness :
    verify_email [ada, bob] "vtok1" =
      ([ada, { bob with is_verified := true, verification_token := none }],
       .ok "Email verified successfully") ∧
    verify_email [ada, { bob with is_verified := true, verification_token := none }] "vtok1" =
      ([ada, { bob with is_verified := true, verification_token := none }],
       .error .invalidToken) ∧
    verify_email [ada, bob] "neverissued" = ([ada, bob], .error .invalidToken) := by
  obtain ⟨l, r, hdb, h1, h2⟩ :=
    (verify_email_single_use [ada, bob] "vtok1" (by decide)).2 bob (by rfl)
  have hl : l = [ada] ∧ r = [] := by
    have : l ++ bob :: r = [ada, bob] := hdb.symm
    rcases l with - | ⟨x, l⟩
    · simp at this
      exact absurd this.1 (by decide)
    · rcases l with - | ⟨y, l⟩
      · simp at this
        exact ⟨by rw [this.1], this.2⟩
      · simp at this
  rw [hl.1, hl.2] at h1 h2
  refine ⟨by simpa using h1, by simpa using h2, ?_⟩
  exact (verify_email_single_use [ada, bob] "neverissued" (by decide)).1 (by rfl)

/-- C2: federated reconciliation resolves in order — an account already
holding the external subject id is returned unchanged with the store
untouched; otherwise an account with the claimed email gets the subject id
attached, verified forced to true, the studentId adopted exactly when the
account had none and one was supplied, and is reported as not new; otherwise
a fresh verified account with the claimed names, email, subject id, optional
studentId and no local secret is created and reported as new.  Degenerate
empty-string student ids are excluded by hypothesis. -/
theorem google_login_spec (db : DB) (c : FederatedClaims) (rsid : Option String)
    (hrsid : rsid = none ∨ ∃ s, rsid = some s ∧ s ≠ "") :
    (∀ u, db.find? (fun a => a.google_id == some c.sub) = some u →
      google_login db c rsid = (db, false, u)) ∧
    (db.find? (fun a => a.google_id == some c.sub) = none →
      (∀ u, db.find? (fun a => a.email == c.email) = some u →
        (u.studentId = none ∨ ∃ s, u.studentId = some s ∧ s ≠ "") →
        ∃ l r, db = l ++ u :: r ∧
          google_login db c rsid =
            (l ++ linkGoogle c.sub rsid u :: r, false, linkGoogle c.sub rsid u) ∧
          (linkGoogle c.sub rsid u).google_id = some c.sub ∧
          (linkGoogle c.sub rsid u).is_verified = true ∧
          (u.studentId = none → (linkGoogle c.sub rsid u).studentId = rsid) ∧
          (∀ s, u.studentId = some s → s ≠ "" →
            (linkGoogle c.sub rsid u).studentId = some s)) ∧
      (db.find? (fun a => a.email == c.email) = none →
        google_login db c rsid =
          (db ++ [{ firstName := c.given_name, lastName := c.family_name,
                    email := c.email, studentId := rsid, password := none,
                    google_id := some c.sub, reset_token := none,
                    is_verified := true, verification_token := none }],
           true,
           { firstName := c.given_name, lastName := c.family_name,
             email := c.email, studentId := rsid, password := none,
             google_id := some c.sub, reset_token := none,
             is_verified := true, verification_token := none }))) := by
  refine ⟨?_, fun hsub => ⟨?_, ?_⟩⟩
  · intro u hsubhit
    unfold google_login
    rw [hsubhit]
  · intro u hmail hok
    obtain ⟨l, r, hdb, hl, hu, hupd⟩ := find?_decomp hmail
    refine ⟨l, r, hdb, ?_, rfl, rfl, ?_, ?_⟩
    · unfold google_login
      rw [hsub, hmail, hupd]
    · intro hnone
      rcases hrsid with rfl | ⟨s, rfl, hs⟩
      · simp [linkGoogle, hnone, pyTruthy]
      · have hbe : (s == "") = false := beq_eq_false_iff_ne.mpr hs
        simp [linkGoogle, hnone, pyTruthy, hbe]
    · intro s hs hne
      have hbe : (s == "") = false := beq_eq_false_iff_ne.mpr hne
      simp [linkGoogle, hs, pyTruthy, hbe]
  · intro hmail
    unfold google_login
    rw [hsub, hmail]

/-- C2 witness: a federated login for the email of the unverified local
account `bob`, supplying a candidate studentId, links the subject id, forces
verification, keeps the already-present studentId, and reports the account as
not new. -/
theorem google_login_spec_witness :
    google_login [bob]
        { email := "bob@x.edu", sub := "gsub9", given_name := "B", family_name := "S" }
        (some "S999") =
      ([{ bob with google_id := some "gsub9", is_verified := true }], false,
       { bob with google_id := some "gsub9", is_verified := true }) := by
  obtain ⟨l, r, hdb, hres, -, -, -, -⟩ :=
    ((google_login_spec [bob]
        { email := "bob@x.edu", sub := "gsub9", given_name := "B", family_name := "S" }
        (some "S999") (Or.inr ⟨"S999", rfl, by decide⟩)).2 (by rfl)).1 bob (by rfl)
      (Or.inr ⟨"S200", rfl, by decide⟩)
  have hl : l = [] ∧ r = [] := by
    have : l ++ bob :: r = [bob] := hdb.symm
    rcases l with - | ⟨x, l⟩
    · simp at this
      exact ⟨rfl, this⟩
    · simp at this
  rw [hl.1, hl.2] at hres
  exact hres.trans (by decide)

/-- C9: the email-linking branch of federated reconciliation changes only the
federated subject id, the verification flag, and (at most) the studentId: the
names, email, stored secret and both pending tokens survive untouched; hence
a local login with the existing secret still works afterwards, and a
previously issued verification token is still consumable. -/
theorem google_link_frame (db : DB) (c : FederatedClaims) (rsid : Option String)
    (u : Account)
    (hsub : db.find? (fun a => a.google_id == some c.sub) = none)
    (hmail : db.find? (fun a => a.email == c.email) = some u) :
    ((linkGoogle c.sub rsid u).firstName = u.firstName ∧
     (linkGoogle c.sub rsid u).lastName = u.lastName ∧
     (linkGoogle c.sub rsid u).email = u.email ∧
     (linkGoogle c.sub rsid u).password = u.password ∧
     (linkGoogle c.sub rsid u).verification_token = u.verification_token ∧
     (linkGoogle c.sub rsid u).reset_token = u.reset_token) ∧
    (∃ l r, db = l ++ u :: r ∧
       google_login db c rsid =
         (l ++ linkGoogle c.sub rsid u :: r, false, linkGoogle c.sub rsid u)) ∧
    (∀ s pw, u.studentId = some s → s ≠ "" → u.password = some (b64encode pw) →
      db.countP (fun a => a.studentId == some s) ≤ 1 →
      login (google_login db c rsid).1 s pw =
        .ok { firstName := u.firstName, lastName := u.lastName, studentId := some s }) ∧
    (∀ t, u.verification_token = some t →
      db.countP (fun a => a.verification_token == some t) ≤ 1 →
      (verify_email (google_login db c rsid).1 t).2 = .ok "Email verified successfully") := by
  obtain ⟨l, r, hdb, hl, hu, hupd⟩ := find?_decomp hmail
  have hres : google_login db c rsid =
      (l ++ linkGoogle c.sub rsid u :: r, false, linkGoogle c.sub rsid u) := by
    unfold google_login
    rw [hsub, hmail, hupd]
  refine ⟨⟨rfl, rfl, rfl, rfl, rfl, rfl⟩, ⟨l, r, hdb, hres⟩, ?_, ?_⟩
  · intro s pw hs hne hpw hcount
    have hbe : (s == "") = false := beq_eq_false_iff_ne.mpr hne
    have hsid2 : (linkGoogle c.sub rsid u).studentId = some s := by
      simp [linkGoogle, hs, pyTruthy, hbe]
    have hsides := countP_le_one_sides (p := fun a => a.studentId == some s)
      (hdb ▸ hcount) (by simp [hs])
    rw [hres]
    unfold login
    have hfind2 : (l ++ linkGoogle c.sub rsid u :: r).find?
        (fun a => a.studentId == some s && a.password == some (b64encode pw)) =
        some (linkGoogle c.sub rsid u) := by
      apply find?_middle
      · intro a ha
        simp [hsides.1 a ha]
      · have hpw2 : (linkGoogle c.sub rsid u).password = some (b64encode pw) := hpw
        simp [hsid2, hpw2]
    rw [hfind2]
    simp [show (linkGoogle c.sub rsid u).is_verified = true from rfl,
      show (linkGoogle c.sub rsid u).firstName = u.firstName from rfl,
      show (linkGoogle c.sub rsid u).lastName = u.lastName from rfl, hsid2]
  · intro t ht hcount
    have hsides := countP_le_one_sides (p := fun a => a.verification_token == some t)
      (hdb ▸ hcount) (by simp [ht])
    rw [hres]
    have hfind2 : (l ++ linkGoogle c.sub rsid u :: r).find?
        (fun a => a.verification_token == some t) = some (linkGoogle c.sub rsid u) := by
      apply find?_middle
      · intro a ha
        simp [hsides.1 a ha]
      · have ht2 : (linkGoogle c.sub rsid u).verification_token = some t := ht
        simp [ht2]
    unfold verify_email
    rw [hfind2]

/-- C9 witness: after linking a federated identity onto `bob`, the local
login with the untouched secret now succeeds and the still-pending
verification token is still consumable. -/
theorem google_link_frame_witness :
    login (google_login [bob]
        { email := "bob@x.edu", sub := "gsub9", given_name := "B", family_name := "S" }
        none).1 "S200" "pw2" =
      .ok { firstName := "Bob", lastName := "Stone", studentId := some "S200" } ∧
    (verify_email (google_login [bob]
        { email := "bob@x.edu", sub := "gsub9", given_name := "B", family_name := "S" }
        none).1 "vtok1").2 = .ok "Email verified successfully" := by
  have h := google_link_frame [bob]
    { email := "bob@x.edu", sub := "gsub9", given_name := "B", family_name := "S" }
    none bob (by rfl) (by rfl)
  exact ⟨h.2.2.1 "S200" "pw2" rfl (by decide) rfl (by decide),
         h.2.2.2 "vtok1" rfl (by decide)⟩

/-- C4 counterexample: for a registered but still unverified account the
post-reset login with the new secret does not succeed — it fails with
EmailNotVerified — so the claim needs the account to be verified. -/
theorem reset_flow_counterexample :
    login (reset_password
        (forgot_password cfgOk true "rt1" [bob] "bob@x.edu").1 "rt1" "pw9").1
      "S200" "pw9" = .error (.emailNotVerified "bob@x.edu") := by rfl

/-- C4 (amended): for every VERIFIED registered account with studentId `s`
and stored secret `old`, after ForgotPassword issues a fresh token `t`,
ResetPassword with `t` succeeds, overwrites the stored secret with the
encoding of the new secret and clears the reset token; afterwards login with
the new secret succeeds and login with the old secret (distinct from the new
one) fails with InvalidCredentials. -/
theorem reset_flow (cfg : SmtpConfig) (sendOk : Bool) (db : DB)
    (e s old new t : String) (u : Account)
    (hfind : db.find? (fun a => a.email == e) = some u)
    (hsid : u.studentId = some s)
    (hpw : u.password = some (b64encode old))
    (hver : u.is_verified = true)
    (hfresh : ∀ a ∈ db, ¬ a.reset_token = some t)
    (huniq : db.countP (fun a => a.studentId == some s) ≤ 1)
    (hneq : old ≠ new) :
    (reset_password (forgot_password cfg sendOk t db e).1 t new).2 =
      .ok "Password reset successfully" ∧
    (∃ l r, db = l ++ u :: r ∧
      (reset_password (forgot_password cfg sendOk t db e).1 t new).1 =
        l ++ { u with password := some (b64encode new), reset_token := none } :: r) ∧
    login (reset_password (forgot_password cfg sendOk t db e).1 t new).1 s new =
      .ok { firstName := u.firstName, lastName := u.lastName, studentId := some s } ∧
    login (reset_password (forgot_password cfg sendOk t db e).1 t new).1 s old =
      .error .invalidCredentials := by
  obtain ⟨l, r, hdb, hl, hu, hupd⟩ := find?_decomp hfind
  have hdb1 : (forgot_password cfg sendOk t db e).1 =
      l ++ { u with reset_token := some t } :: r := by
    unfold forgot_password
    rw [hfind, hupd]
    cases hsend : send_auth_email cfg sendOk <;> rfl
  have hlfresh : ∀ a ∈ l, (a.reset_token == some t) = false := by
    intro a ha
    have hmem : a ∈ db := by
      rw [hdb]
      exact List.mem_append_left _ ha
    exact beq_eq_false_iff_ne.mpr (hfresh a hmem)
  have hfind1 : (l ++ { u with reset_token := some t } :: r).find?
      (fun a => a.reset_token == some t) = some { u with reset_token := some t } :=
    find?_middle hlfresh (by simp)
  have hdb2 : (reset_password (forgot_password cfg sendOk t db e).1 t new).1 =
      l ++ { u with password := some (b64encode new), reset_token := none } :: r := by
    rw [hdb1]
    unfold reset_password
    rw [hfind1, updateFirst_middle hlfresh (by simp)]
  have hok2 : (reset_password (forgot_password cfg sendOk t db e).1 t new).2 =
      .ok "Password reset successfully" := by
    rw [hdb1]
    unfold reset_password
    rw [hfind1]
  have hsides := countP_le_one_sides (p := fun a => a.studentId == some s)
    (hdb ▸ huniq) (by simp [hsid])
  have henc : b64encode old ≠ b64encode new := fun hc => hneq (b64encode_injective hc)
  refine ⟨hok2, ⟨l, r, hdb, hdb2⟩, ?_, ?_⟩
  · unfold login
    rw [hdb2]
    have hfindnew : (l ++ { u with password := some (b64encode new), reset_token := none }
          :: r).find?
        (fun a => a.studentId == some s && a.password == some (b64encode new)) =
        some { u with password := some (b64encode new), reset_token := none } := by
      apply find?_middle
      · intro a ha
        simp [hsides.1 a ha]
      · simp [hsid]
    rw [hfindnew]
    simp [hver, hsid]
  · unfold login
    rw [hdb2]
    have hfindold : (l ++ { u with password := some (b64encode new), reset_token := none }
          :: r).find?
        (fun a => a.studentId == some s && a.password == some (b64encode old)) = none := by
      apply find?_middle_none
      · intro a ha
        simp [hsides.1 a ha]
      · have : (some (b64encode new) == some (b64encode old)) = false := by
          rw [beq_eq_false_iff_ne]
          intro hc
          exact henc (Option.some.inj hc).symm
        simp [this]
      · intro a ha
        simp [hsides.2 a ha]
    rw [hfindold]

/-- C4 witness: the verified account `ada` resets pw1 to pw2; login with pw2
then succeeds and login with pw1 fails with InvalidCredentials. -/
theorem reset_flow_witness :
    login (reset_password
        (forgot_password cfgOk true "rt1" [ada] "ada@x.edu").1 "rt1" "pw2").1
      "S100" "pw2" =
      .ok { firstName := "Ada", lastName := "Lovelace", studentId := some "S100" } ∧
    login (reset_password
        (forgot_password cfgOk true "rt1" [ada] "ada@x.edu").1 "rt1" "pw2").1
      "S100" "pw1" = .error .invalidCredentials := by
  have h := reset_flow cfgOk true [ada] "ada@x.edu" "S100" "pw1" "pw2" "rt1" ada
    (by rfl) (by rfl) (by rfl) (by rfl) (by decide) (by decide) (by decide)
  exact ⟨h.2.2.1, h.2.2.2⟩

end LearnX
